import Mathlib

/-!
Verification of the Warm Delights backend storage core (`src/server.js`,
class `GlobalImageStorage`).

The JavaScript class is shallowly embedded as follows:

* Image records live on an explicit heap `Nat → ImageRecord`; the in-memory
  array `this.images` is a list of heap references, and the value kept in the
  session cache for the key `"gallery"` is likewise a list of references.
  This mirrors JavaScript aliasing: `getPublicImages()` builds a fresh array
  (via `filter`) whose elements are references to the very objects stored in
  `this.images`, and `updateSessionCache('gallery', ...)` stores that array,
  so an in-place mutation such as `image.views += 1` is visible through the
  cached array as well.
* Clock reads (`Date.now()`, `new Date().toISOString()`) become explicit
  `now : Nat` parameters measured in milliseconds; ISO timestamp strings are
  represented by their millisecond value, which `new Date(s)` recovers and
  which orders identically.
* `Map` objects (`sessionCache`, `adminSessions`) are embedded as functions
  from keys to `Option` values.
* File contents are modelled as values: the gallery snapshot written by
  `saveGalleryData` is kept in the `dataFile` field of the store, and
  `loadGalleryData` consumes such a snapshot.  The write of the separate
  session-cache file by `saveSessionData` is pure I/O with no effect on the
  in-memory state and is therefore not represented.
* `Array.prototype.sort` with the comparator
  `(a, b) => new Date(b.uploadedAt) - new Date(a.uploadedAt)` is a stable
  sort (ECMAScript 2019) ordering by `uploadedAt` descending; `sortDesc`
  below is the stable insertion sort with exactly that order, and a stable
  sort for a fixed comparator has a unique result.
-/

/-- One uploaded gallery asset, as built by `addImage` in `src/server.js`. -/
structure ImageRecord where
  id : Nat
  filename : String
  originalName : String
  uploadedBy : String
  size : Nat
  mimeType : String
  uploadedAt : Nat
  views : Nat
  isPublic : Bool
  url : String
  alt : String
  tags : List String
  deriving Repr, DecidableEq

/-- Default inhabitant used for unallocated heap references. -/
def defaultImage : ImageRecord :=
  { id := 0, filename := "", originalName := "", uploadedBy := "", size := 0
    mimeType := "", uploadedAt := 0, views := 0, isPublic := false, url := "", alt := ""
    tags := [] }

/-- Free-form analytics payload (`data` argument of `trackEvent`),
as a list of key/value string pairs. -/
def EventData := List (String × String)

instance : DecidableEq EventData := by
  unfold EventData; infer_instance

/-- One analytics event, as built by `trackEvent` in `src/server.js`. -/
structure AnalyticsEvent where
  id : Nat
  type : String
  data : EventData
  timestamp : Nat
  ip : String
  deriving DecidableEq

/-- One line item of an order (`{name, price, quantity}`). -/
structure OrderItem where
  name : String
  price : Nat
  quantity : Nat
  deriving Repr, DecidableEq

/-- A stored order, as built by `addOrder` from the order data assembled by
the `POST /api/orders` handler. -/
structure Order where
  id : Nat
  customerName : Option String
  email : Option String
  phone : Option String
  items : List OrderItem
  specialInstructions : Option String
  deliveryDate : Option String
  deliveryAddress : Option String
  referenceImage : Option String
  totalAmount : Nat
  status : String
  createdAt : Nat
  deriving Repr, DecidableEq

/-- A session-cache entry (`{data, timestamp, expires}`) as written by
`updateSessionCache`.  In process, the `data` stored for the `"gallery"` key
is the array produced by `getPublicImages()`: a list of references into the
image heap. -/
structure CacheEntry where
  data : List Nat
  timestamp : Nat
  expires : Nat
  deriving Repr, DecidableEq

/-- An admin session record as stored by `createAdminSession`. -/
structure AdminSess where
  username : String
  loginTime : Nat
  ip : String
  userAgent : String
  deriving Repr, DecidableEq

/-- The JSON document written by `saveGalleryData` to `global_gallery.json`. -/
structure Snapshot where
  images : List ImageRecord
  analytics : List AnalyticsEvent
  orders : List Order
  orderIdCounter : Nat
  lastUpdated : Nat
  deriving DecidableEq

/-- The mutable state of `GlobalImageStorage`: heap of image objects plus the
fields of the class, with the gallery JSON file modelled as `dataFile`. -/
structure Store where
  heap : Nat → ImageRecord
  nextRef : Nat
  images : List Nat
  sessionCache : String → Option CacheEntry
  adminSessions : String → Option AdminSess
  analyticsEvents : List AnalyticsEvent
  orders : List Order
  orderIdCounter : Nat
  dataFile : Option Snapshot

/-- The state of a freshly constructed `GlobalImageStorage` before any data
is loaded (constructor field initialisers). -/
def freshStore : Store :=
  { heap := fun _ => defaultImage
    nextRef := 0
    images := []
    sessionCache := fun _ => none
    adminSessions := fun _ => none
    analyticsEvents := []
    orders := []
    orderIdCounter := 1
    dataFile := none }

/-- `l.slice(-n)` for `n ≥ 1`: the suffix of the most recent `n` elements
(all of `l` when `l` is shorter). -/
def takeLast (n : Nat) (l : List α) : List α :=
  l.drop (l.length - n)

/-- `Array.prototype.slice(start)` for an integer `start`: JavaScript clamps a
negative start to `max(length + start, 0)` and a non-negative one to at most
`length`; `slice(-0)` normalises to `slice(0)`. -/
def jsSliceFrom (l : List α) (start : Int) : List α :=
  if start < 0 then l.drop (l.length - (-start).toNat) else l.drop start.toNat

/-- Stable insertion into a list sorted by `k` descending: `x` is placed
before the first element whose key is `≤ k x`, hence after every earlier
element with the same key. -/
def insertDesc (k : α → Nat) (x : α) : List α → List α
  | [] => [x]
  | y :: l => if k x < k y then y :: insertDesc k x l else x :: y :: l

/-- Stable sort by `k` descending; the unique output of any stable sort with
comparator `(a, b) => k b - k a`, hence of the `Array.prototype.sort` call in
`getPublicImages`. -/
def sortDesc (k : α → Nat) : List α → List α
  | [] => []
  | x :: l => insertDesc k x (sortDesc k l)

/-- The default `BASE_URL` used when building an image's `url`. -/
def baseUrl : String := "https://warm-delights-backend-production.up.railway.app"

/-- The serialized document `saveGalleryData` writes: it truncates the
analytics log to the last 5000 events (`this.analyticsEvents.slice(-5000)`)
at serialization time. -/
def mkSnapshot (s : Store) (now : Nat) : Snapshot :=
  { images := s.images.map s.heap
    analytics := takeLast 5000 s.analyticsEvents
    orders := s.orders
    orderIdCounter := s.orderIdCounter
    lastUpdated := now }

/-- `saveGalleryData()`: overwrite the gallery JSON file with the current
state (in-memory collections are untouched). -/
def saveGalleryData (s : Store) (now : Nat) : Store :=
  { s with dataFile := some (mkSnapshot s now) }

/-- `loadGalleryData()` on a fresh instance: if the file exists, install the
parsed collections, defaulting the counter via `parsed.orderIdCounter || 1`
(so a stored `0` — the only falsy number reachable here — becomes `1`);
the parsed image objects are fresh allocations, modelled as references
`0, …, n-1`.  Only the successful-parse path is modelled; the catch branch
resets to empty collections. -/
def loadGalleryData (file : Option Snapshot) : Store :=
  match file with
  | none => freshStore
  | some p =>
      { freshStore with
        heap := fun r => p.images.getD r defaultImage
        nextRef := p.images.length
        images := List.range p.images.length
        analyticsEvents := p.analytics
        orders := p.orders
        orderIdCounter := if p.orderIdCounter = 0 then 1 else p.orderIdCounter
        dataFile := file }

/-- The reference list computed by `getPublicImages()` before dereferencing:
`this.images.filter(img => img.isPublic).sort(byUploadedAtDesc)` is an array
of references to the live image objects. -/
def publicRefs (s : Store) : List Nat :=
  sortDesc (fun r => (s.heap r).uploadedAt)
    (s.images.filter (fun r => (s.heap r).isPublic))

/-- `getPublicImages()` as a query for the record values it returns. -/
def getPublicImages (s : Store) : List ImageRecord :=
  (publicRefs s).map s.heap

/-- `getPublicImages()` as a state-passing call: `filter` allocates a fresh
array of references and `sort` reorders only that fresh array, so nothing is
written into the store. -/
def getPublicImagesCall (s : Store) : List ImageRecord × Store :=
  let copy := s.images.filter (fun r => (s.heap r).isPublic)
  let sorted := sortDesc (fun r => (s.heap r).uploadedAt) copy
  (sorted.map s.heap, s)

/-- `updateSessionCache(key, value)`: overwrite the entry with a fresh
timestamp and `expires = now + 15 minutes`.  (The accompanying
`saveSessionData()` file write does not change the in-memory state.) -/
def updateSessionCache (s : Store) (key : String) (value : List Nat) (now : Nat) : Store :=
  { s with sessionCache := fun k =>
      if k = key then
        some { data := value, timestamp := now, expires := now + 15 * 60 * 1000 }
      else s.sessionCache k }

/-- `getFromSessionCache(key)`: return the cached data while
`expires > Date.now()`; otherwise delete the entry and return `null`. -/
def getFromSessionCache (s : Store) (key : String) (now : Nat) :
    Option (List Nat) × Store :=
  match s.sessionCache key with
  | some e =>
      if now < e.expires then (some e.data, s)
      else (none, { s with sessionCache := fun k => if k = key then none else s.sessionCache k })
  | none => (none, { s with sessionCache := fun k => if k = key then none else s.sessionCache k })

/-- `clearExpiredSessions()`: delete every cache entry with `expires < now`. -/
def clearExpiredSessions (s : Store) (now : Nat) : Store :=
  { s with sessionCache := fun k =>
      match s.sessionCache k with
      | some e => if e.expires < now then none else some e
      | none => none }

/-- Metadata passed to `addImage` by the upload route. -/
structure ImageMeta where
  filename : String
  originalName : String
  uploadedBy : String
  size : Nat
  mimeType : String
  deriving Repr, DecidableEq

/-- `addImage(imageData)`: build the record (`id = Date.now()`, `views = 0`,
`isPublic = true`, derived `url` and `alt`), push it, save to disk, then
refresh the cached public view with `getPublicImages()`. -/
def addImage (s : Store) (meta : ImageMeta) (now : Nat) : ImageRecord × Store :=
  let image : ImageRecord :=
    { id := now
      filename := meta.filename
      originalName := meta.originalName
      uploadedBy := meta.uploadedBy
      size := meta.size
      mimeType := meta.mimeType
      uploadedAt := now
      views := 0
      isPublic := true
      url := baseUrl ++ "/uploads/" ++ meta.filename
      alt := "Warm Delights - " ++ meta.originalName
      tags := [] }
  let r := s.nextRef
  let s₁ : Store :=
    { s with
      heap := fun x => if x = r then image else s.heap x
      nextRef := r + 1
      images := s.images ++ [r] }
  let s₂ := saveGalleryData s₁ now
  let s₃ := updateSessionCache s₂ "gallery" (publicRefs s₂) now
  (image, s₃)

/-- `removeImage(imageId)`: `findIndex` on `id`; `-1` returns `null` with the
store untouched, otherwise `splice` out exactly that element, save, and
refresh the cached public view. -/
def removeImage (s : Store) (imageId : Nat) (now : Nat) : Option ImageRecord × Store :=
  match s.images.findIdx? (fun r => (s.heap r).id == imageId) with
  | none => (none, s)
  | some i =>
      let r := s.images.getD i 0
      let removed := s.heap r
      let s₁ := saveGalleryData { s with images := s.images.eraseIdx i } now
      let s₂ := updateSessionCache s₁ "gallery" (publicRefs s₁) now
      (some removed, s₂)

/-- `incrementImageViews(filename)`: find by filename; on a hit mutate the
object's `views` in place and save, returning the new count; on a miss
return `0` without touching anything. -/
def incrementImageViews (s : Store) (filename : String) (now : Nat) : Nat × Store :=
  match s.images.find? (fun r => (s.heap r).filename == filename) with
  | some r =>
      let v := (s.heap r).views + 1
      let s₁ : Store :=
        { s with heap := fun x => if x = r then { s.heap r with views := v } else s.heap x }
      (v, saveGalleryData s₁ now)
  | none => (0, s)

/-- The `data.ip || 'unknown'` read performed by `trackEvent`. -/
def eventIp (data : EventData) : String :=
  match List.lookup "ip" data with
  | some s => if s = "" then "unknown" else s
  | none => "unknown"

/-- The event record `trackEvent` constructs for given inputs and clock. -/
def mkEvent (eventType : String) (data : EventData) (now : Nat) : AnalyticsEvent :=
  { id := now, type := eventType, data := data, timestamp := now, ip := eventIp data }

/-- `trackEvent(eventType, data)`: append the event, truncate the in-memory
log to the most recent 10000 when it exceeds 10000, then save. -/
def trackEvent (s : Store) (eventType : String) (data : EventData) (now : Nat) :
    AnalyticsEvent × Store :=
  let event := mkEvent eventType data now
  let evs := s.analyticsEvents ++ [event]
  let evs := if 10000 < evs.length then takeLast 10000 evs else evs
  (event, saveGalleryData { s with analyticsEvents := evs } now)

/-- The order fields assembled by the `POST /api/orders` handler before the
`addOrder` call. -/
structure OrderData where
  customerName : Option String
  email : Option String
  phone : Option String
  items : List OrderItem
  specialInstructions : Option String
  deliveryDate : Option String
  deliveryAddress : Option String
  referenceImage : Option String
  totalAmount : Nat
  deriving Repr, DecidableEq

/-- `addOrder(orderData)`: allocate `id` from the counter (post-increment),
set `status = 'pending'` and `createdAt`, push, save. -/
def addOrder (s : Store) (d : OrderData) (now : Nat) : Order × Store :=
  let order : Order :=
    { id := s.orderIdCounter
      customerName := d.customerName
      email := d.email
      phone := d.phone
      items := d.items
      specialInstructions := d.specialInstructions
      deliveryDate := d.deliveryDate
      deliveryAddress := d.deliveryAddress
      referenceImage := d.referenceImage
      totalAmount := d.totalAmount
      status := "pending"
      createdAt := now }
  let s₁ := { s with orderIdCounter := s.orderIdCounter + 1, orders := s.orders ++ [order] }
  (order, saveGalleryData s₁ now)

/-- `getOrders(limit)`: `this.orders.slice(-limit).reverse()` (`slice` copies,
`reverse` then reorders only the copy). -/
def getOrders (s : Store) (limit : Nat) : List Order :=
  (jsSliceFrom s.orders (-(limit : Int))).reverse

/-- The `items` field of an order request.  In a multipart body it arrives as
a string and goes through `JSON.parse`; `str` carries that parse's outcome
(`none` models a string that is not valid JSON, on which `JSON.parse`
throws).  A JSON body can carry the array directly (`arr`), and a missing
field (`undefined`) falls through `items || []` to `[]`. -/
inductive ItemsField where
  | missing
  | arr (items : List OrderItem)
  | str (parsed : Option (List OrderItem))
  deriving Repr, DecidableEq

/-- `typeof items === 'string' ? JSON.parse(items) : items || []`;
`none` means the expression throws. -/
def parseItems : ItemsField → Option (List OrderItem)
  | .missing => some []
  | .arr l => some l
  | .str p => p

/-- A request body for `POST /api/orders` (plus the uploaded reference file's
stored name, if any). -/
structure OrderReq where
  customerName : Option String
  email : Option String
  phone : Option String
  items : ItemsField
  specialInstructions : Option String
  deliveryDate : Option String
  deliveryAddress : Option String
  file : Option String
  deriving Repr, DecidableEq

/-- JavaScript falsiness of an optional string field: absent (`undefined`) or
the empty string. -/
def jsFalsy : Option String → Bool
  | none => true
  | some s => s.isEmpty

/-- `String.prototype.padStart(n, c)`. -/
def padStart (s : String) (n : Nat) (c : Char) : String :=
  String.mk (List.replicate (n - s.length) c) ++ s

/-- The external order id `WD` + id zero-padded to 4 digits. -/
def fmtOrderId (n : Nat) : String :=
  "WD" ++ padStart (toString n) 4 '0'

/-- Response shape of the order route (HTTP status plus body fields). -/
structure OrderResp where
  status : Nat
  success : Bool
  message : String
  orderId : Option String
  deriving Repr, DecidableEq

/-- The `POST /api/orders` handler: reject with 400 when a required contact
field is falsy; a non-JSON `items` string makes `JSON.parse` throw, reaching
the catch handler which answers 500 — in both failure cases before any store
mutation.  Otherwise build the order data (deriving `totalAmount`), store it,
and track the `order_placed` event.  (The confirmation e-mail is external
I/O.) -/
def postOrder (s : Store) (req : OrderReq) (now : Nat) : OrderResp × Store :=
  if jsFalsy req.customerName || jsFalsy req.email || jsFalsy req.phone then
    ({ status := 400, success := false
       message := "Name, email, and phone are required", orderId := none }, s)
  else
    match parseItems req.items with
    | none =>
        ({ status := 500, success := false
           message := "Failed to place order", orderId := none }, s)
    | some parsedItems =>
        let d : OrderData :=
          { customerName := req.customerName
            email := req.email
            phone := req.phone
            items := parsedItems
            specialInstructions := req.specialInstructions
            deliveryDate := req.deliveryDate
            deliveryAddress := req.deliveryAddress
            referenceImage := req.file
            totalAmount := parsedItems.foldl (fun t i => t + i.price * i.quantity) 0 }
        let os := addOrder s d now
        let ts := trackEvent os.2 "order_placed"
          [("orderId", toString os.1.id), ("totalAmount", toString os.1.totalAmount),
           ("itemCount", toString parsedItems.length)] now
        ({ status := 201, success := true
           message := "Order placed and stored in global storage!"
           orderId := some (fmtOrderId os.1.id) }, ts.2)

/-- `createAdminSession(username, loginData)`: store
`{username, loginTime, ip, userAgent}` under the generated opaque id (the id
itself — built from time and `Math.random()` — is taken as an input). -/
def createAdminSession (s : Store) (sid username ip userAgent : String) (loginTime : Nat) :
    String × Store :=
  let s₁ : Store :=
    { s with adminSessions := fun k =>
        if k = sid then
          some { username := username, loginTime := loginTime, ip := ip, userAgent := userAgent }
        else s.adminSessions k }
  (sid, s₁)

/-- `validateAdminSession(sessionId)`: `this.adminSessions.has(sessionId)` —
a pure presence check that never consults the clock. -/
def validateAdminSession (s : Store) (sid : String) : Bool :=
  (s.adminSessions sid).isSome

/-- `removeAdminSession(sessionId)`. -/
def removeAdminSession (s : Store) (sid : String) : Store :=
  { s with adminSessions := fun k => if k = sid then none else s.adminSessions k }

/-- The admin-session half of the periodic cleanup task: delete every session
with `(now - loginTime) / 3600000 > 2`.  Over the exactly-representable
millisecond range this floating-point comparison is equivalent to
`now - loginTime > 7200000`, the form used here. -/
def adminSweep (s : Store) (now : Nat) : Store :=
  { s with adminSessions := fun k =>
      match s.adminSessions k with
      | some e => if 2 * 3600000 < now - e.loginTime then none else some e
      | none => none }

/-- The store-mutating entry points, for stating invariants over arbitrary
interleavings.  `cacheWriteGallery` is the miss path of `GET /api/gallery`
(`updateSessionCache('gallery', getPublicImages())`), and `cacheGet` the
state effect of any `getFromSessionCache` call. -/
inductive Op where
  | addImg (meta : ImageMeta) (now : Nat)
  | rmImg (id : Nat) (now : Nat)
  | incViews (filename : String) (now : Nat)
  | track (eventType : String) (data : EventData) (now : Nat)
  | order (req : OrderReq) (now : Nat)
  | save (now : Nat)
  | cacheGet (key : String) (now : Nat)
  | cacheWriteGallery (now : Nat)
  | clearCache (now : Nat)
  | adminLogin (sid username ip userAgent : String) (now : Nat)
  | adminLogout (sid : String)
  | adminSweepOp (now : Nat)

/-- State effect of one operation. -/
def stepOp (s : Store) : Op → Store
  | .addImg meta now => (addImage s meta now).2
  | .rmImg id now => (removeImage s id now).2
  | .incViews fn now => (incrementImageViews s fn now).2
  | .track ty d now => (trackEvent s ty d now).2
  | .order req now => (postOrder s req now).2
  | .save now => saveGalleryData s now
  | .cacheGet k now => (getFromSessionCache s k now).2
  | .cacheWriteGallery now => updateSessionCache s "gallery" (publicRefs s) now
  | .clearCache now => clearExpiredSessions s now
  | .adminLogin sid u ip ua now => (createAdminSession s sid u ip ua now).2
  | .adminLogout sid => removeAdminSession s sid
  | .adminSweepOp now => adminSweep s now

/-- Run a sequence of operations. -/
def applyOps (s : Store) : List Op → Store
  | [] => s
  | op :: ops => applyOps (stepOp s op) ops

/-- The cache coherence invariant for the public gallery: whenever the
`"gallery"` entry is present, its data is exactly the reference list
`getPublicImages()` would compute now. -/
def cacheInv (s : Store) : Prop :=
  ∀ e, s.sessionCache "gallery" = some e → e.data = publicRefs s

/-- A store holding exactly the given image records, freshly allocated at
references `0, …, n-1` (as after loading them or uploading them in order). -/
def mkStore (l : List ImageRecord) : Store :=
  { freshStore with
    heap := fun r => l.getD r defaultImage
    nextRef := l.length
    images := List.range l.length }

/-- One `trackEvent` call's inputs: type, data, and the clock value read. -/
structure TrackIn where
  eventType : String
  data : EventData
  now : Nat

/-- Apply a sequence of `trackEvent` calls. -/
def runTrack (s : Store) : List TrackIn → Store
  | [] => s
  | i :: t => runTrack (trackEvent s i.eventType i.data i.now).2 t

/-- The event records those calls construct, in call order. -/
def mkEvents (ts : List TrackIn) : List AnalyticsEvent :=
  ts.map (fun i => mkEvent i.eventType i.data i.now)

/-- Concrete upload metadata used in witnesses. -/
def meta0 : ImageMeta :=
  { filename := "cake.jpg", originalName := "cake.jpg"
    uploadedBy := "warmdelights_admin", size := 2048, mimeType := "image/jpeg" }

/-- Concrete public image records with ascending upload times. -/
def img1 : ImageRecord :=
  { defaultImage with id := 1, filename := "a.jpg", uploadedAt := 100, isPublic := true }

/-- Second concrete record (later upload time). -/
def img2 : ImageRecord :=
  { defaultImage with id := 2, filename := "b.jpg", uploadedAt := 200, isPublic := true }

/-- Third concrete record (latest upload time). -/
def img3 : ImageRecord :=
  { defaultImage with id := 3, filename := "c.jpg", uploadedAt := 300, isPublic := true }

/-- Concrete record with id 10 used in delete/view witnesses. -/
def imgA : ImageRecord :=
  { defaultImage with id := 10, filename := "x.jpg", uploadedAt := 50, isPublic := true }

/-- Concrete record with id 20 used in delete witnesses. -/
def imgB : ImageRecord :=
  { defaultImage with id := 20, filename := "y.jpg", uploadedAt := 60, isPublic := true }

/-- An order request whose `items` is a string on which `JSON.parse` throws,
with all required contact fields present. -/
def badReq : OrderReq :=
  { customerName := some "Asha", email := some "asha@example.com", phone := some "9999"
    items := ItemsField.str none, specialInstructions := none, deliveryDate := none
    deliveryAddress := none, file := none }

/-- An order request missing the required `customerName`. -/
def missingReq : OrderReq :=
  { customerName := none, email := some "asha@example.com", phone := some "9999"
    items := ItemsField.missing, specialInstructions := none, deliveryDate := none
    deliveryAddress := none, file := none }

/-- A concrete `trackEvent` input used in witnesses. -/
def trackIn0 : TrackIn := { eventType := "page_visit", data := [], now := 7 }

/-- A concrete stored order used in witnesses. -/
def orderW : Order :=
  { id := 1, customerName := some "A", email := some "a@b.c", phone := some "1"
    items := [], specialInstructions := none, deliveryDate := none
    deliveryAddress := none, referenceImage := none, totalAmount := 0
    status := "pending", createdAt := 0 }

/-- A store holding three orders, for the `getOrders` witness. -/
def sOrders : Store :=
  { freshStore with orders := [orderW, { orderW with id := 2 }, { orderW with id := 3 }] }

/-! ### List auxiliary lemmas -/

theorem drop_append_ge (l₁ l₂ : List α) (j : Nat) (h : l₁.length ≤ j) :
    (l₁ ++ l₂).drop j = l₂.drop (j - l₁.length) := by
  induction l₁ generalizing j with
  | nil => simp
  | cons a t ih =>
      cases j with
      | zero => simp at h
      | succ m =>
          have ht : t.length ≤ m := by simpa using h
          simp only [List.cons_append, List.drop_succ_cons, ih m ht, List.length_cons]
          congr 1
          omega

theorem drop_append_le (l₁ l₂ : List α) (j : Nat) (h : j ≤ l₁.length) :
    (l₁ ++ l₂).drop j = l₁.drop j ++ l₂ := by
  induction l₁ generalizing j with
  | nil =>
      have : j = 0 := by simpa using h
      simp [this]
  | cons a t ih =>
      cases j with
      | zero => simp
      | succ m =>
          have ht : m ≤ t.length := by simpa using h
          simp [List.drop_succ_cons, ih m ht]

theorem takeLast_length (n : Nat) (l : List α) : (takeLast n l).length = min n l.length := by
  simp only [takeLast, List.length_drop]
  omega

theorem takeLast_eq_self {n : Nat} {l : List α} (h : l.length ≤ n) : takeLast n l = l := by
  have : l.length - n = 0 := by omega
  simp [takeLast, this]

theorem takeLast_append_eq (n : Nat) (x y : List α) :
    takeLast n (x ++ y) = takeLast (n - y.length) x ++ takeLast n y := by
  unfold takeLast
  rw [List.length_append]
  by_cases h : n ≤ y.length
  · rw [drop_append_ge x y _ (by omega)]
    have hx0 : x.length - (n - y.length) = x.length := by omega
    rw [hx0, List.drop_length, List.nil_append]
    congr 1
    omega
  · rw [drop_append_le x y _ (by omega)]
    have hy0 : y.length - n = 0 := by omega
    rw [hy0, List.drop_zero]
    congr 2
    omega

theorem takeLast_takeLast (m n : Nat) (x : List α) (h : m ≤ n) :
    takeLast m (takeLast n x) = takeLast m x := by
  unfold takeLast
  rw [List.length_drop, List.drop_drop]
  congr 1
  omega

theorem takeLast_append (n : Nat) (x y : List α) :
    takeLast n (takeLast n x ++ y) = takeLast n (x ++ y) := by
  rw [takeLast_append_eq, takeLast_append_eq n x y,
    takeLast_takeLast _ _ _ (Nat.sub_le n y.length)]

theorem drop_replicate (j m : Nat) (a : α) :
    (List.replicate m a).drop j = List.replicate (m - j) a := by
  induction j generalizing m with
  | zero => simp
  | succ i ih =>
      cases m with
      | zero => simp
      | succ k => simp [List.replicate_succ, List.drop_succ_cons, ih k]

theorem takeLast_replicate (n m : Nat) (a : α) :
    takeLast n (List.replicate m a) = List.replicate (min n m) a := by
  unfold takeLast
  rw [List.length_replicate, drop_replicate]
  congr 1
  omega

theorem range_map_getD (l : List α) (d : α) :
    (List.range l.length).map (fun i => l.getD i d) = l := by
  apply List.ext_getElem
  · simp
  · intro i h₁ h₂
    simp [List.getD_eq_getElem?_getD, List.getElem?_eq_getElem h₂]

/-! ### Stable descending sort lemmas -/

theorem mem_insertDesc {k : α → Nat} {x y : α} {l : List α} :
    y ∈ insertDesc k x l ↔ y = x ∨ y ∈ l := by
  induction l with
  | nil => simp [insertDesc]
  | cons z t ih =>
      by_cases h : k x < k z
      · simp only [insertDesc, if_pos h, List.mem_cons, ih]
        tauto
      · simp only [insertDesc, if_neg h, List.mem_cons]

theorem perm_insertDesc (k : α → Nat) (x : α) (l : List α) :
    (insertDesc k x l).Perm (x :: l) := by
  induction l with
  | nil => simp [insertDesc]
  | cons z t ih =>
      by_cases h : k x < k z
      · rw [insertDesc, if_pos h]
        exact (ih.cons z).trans (List.Perm.swap x z t)
      · rw [insertDesc, if_neg h]

theorem sortDesc_perm (k : α → Nat) (l : List α) : (sortDesc k l).Perm l := by
  induction l with
  | nil => simp [sortDesc]
  | cons x t ih =>
      rw [sortDesc]
      exact (perm_insertDesc k x (sortDesc k t)).trans (ih.cons x)

theorem mem_sortDesc {k : α → Nat} {l : List α} {y : α} :
    y ∈ sortDesc k l ↔ y ∈ l :=
  (sortDesc_perm k l).mem_iff

theorem pairwise_insertDesc {k : α → Nat} {x : α} {l : List α}
    (h : l.Pairwise (fun a b => k b ≤ k a)) :
    (insertDesc k x l).Pairwise (fun a b => k b ≤ k a) := by
  induction l with
  | nil => simp [insertDesc]
  | cons z t ih =>
      rcases List.pairwise_cons.mp h with ⟨hz, ht⟩
      by_cases hx : k x < k z
      · rw [insertDesc, if_pos hx]
        refine List.pairwise_cons.mpr ⟨?_, ih ht⟩
        intro b hb
        rcases mem_insertDesc.mp hb with rfl | hbt
        · exact Nat.le_of_lt hx
        · exact hz b hbt
      · rw [insertDesc, if_neg hx]
        refine List.pairwise_cons.mpr ⟨?_, h⟩
        intro b hb
        rcases List.mem_cons.mp hb with rfl | hbt
        · exact Nat.le_of_not_lt hx
        · exact Nat.le_trans (hz b hbt) (Nat.le_of_not_lt hx)

theorem sortDesc_sorted (k : α → Nat) (l : List α) :
    (sortDesc k l).Pairwise (fun a b => k b ≤ k a) := by
  induction l with
  | nil => simp [sortDesc]
  | cons x t ih => exact pairwise_insertDesc ih

theorem filter_insertDesc (k : α → Nat) (m : Nat) (x : α) (l : List α) :
    (insertDesc k x l).filter (fun a => decide (k a = m)) =
      if k x = m then x :: l.filter (fun a => decide (k a = m))
      else l.filter (fun a => decide (k a = m)) := by
  induction l with
  | nil =>
      by_cases hx : k x = m <;> simp [insertDesc, hx]
  | cons z t ih =>
      by_cases h : k x < k z
      · rw [insertDesc, if_pos h]
        by_cases hx : k x = m
        · have hz : ¬ (k z = m) := by omega
          simp [List.filter_cons, hx, hz, ih]
        · simp [List.filter_cons, hx, ih]
      · rw [insertDesc, if_neg h]
        by_cases hx : k x = m <;> simp [List.filter_cons, hx]

theorem sortDesc_stable (k : α → Nat) (m : Nat) (l : List α) :
    (sortDesc k l).filter (fun a => decide (k a = m)) =
      l.filter (fun a => decide (k a = m)) := by
  induction l with
  | nil => simp [sortDesc]
  | cons x t ih =>
      rw [sortDesc, filter_insertDesc, ih]
      by_cases hx : k x = m <;> simp [List.filter_cons, hx]

theorem insertDesc_map (k : β → Nat) (f : α → β) (x : α) (l : List α) :
    insertDesc k (f x) (l.map f) = (insertDesc (fun a => k (f a)) x l).map f := by
  induction l with
  | nil => simp [insertDesc]
  | cons z t ih =>
      by_cases h : k (f x) < k (f z)
      · rw [List.map_cons, insertDesc, if_pos h, insertDesc, if_pos h, List.map_cons, ih]
      · rw [List.map_cons, insertDesc, if_neg h, insertDesc, if_neg h]
        simp

theorem sortDesc_map (k : β → Nat) (f : α → β) (l : List α) :
    sortDesc k (l.map f) = (sortDesc (fun a => k (f a)) l).map f := by
  induction l with
  | nil => simp [sortDesc]
  | cons x t ih => rw [List.map_cons, sortDesc, ih, sortDesc, insertDesc_map]

theorem insertDesc_congr {k kk : α → Nat} {x : α} {l : List α}
    (hx : k x = kk x) (hl : ∀ a ∈ l, k a = kk a) :
    insertDesc k x l = insertDesc kk x l := by
  induction l with
  | nil => simp [insertDesc]
  | cons z t ih =>
      have hz : k z = kk z := hl z (List.mem_cons_self z t)
      have ht : ∀ a ∈ t, k a = kk a := fun a ha => hl a (List.mem_cons_of_mem z ha)
      rw [insertDesc, insertDesc, hx, hz, ih ht]

theorem sortDesc_congr {k kk : α → Nat} {l : List α} (h : ∀ a ∈ l, k a = kk a) :
    sortDesc k l = sortDesc kk l := by
  induction l with
  | nil => simp [sortDesc]
  | cons x t ih =>
      have ht : ∀ a ∈ t, k a = kk a := fun a ha => h a (List.mem_cons_of_mem x ha)
      rw [sortDesc, sortDesc, ih ht]
      exact insertDesc_congr (h x (List.mem_cons_self x t))
        (fun a ha => ht a (mem_sortDesc.mp ha))

/-! ### Store-level helper lemmas -/

theorem publicRefs_eq_of (s t : Store) (hi : t.images = s.images) (hh : t.heap = s.heap) :
    publicRefs t = publicRefs s := by
  rw [publicRefs, publicRefs, hi, hh]

theorem cacheInv_of_untouched (s t : Store) (hc : t.sessionCache = s.sessionCache)
    (hi : t.images = s.images) (hh : t.heap = s.heap) (h : cacheInv s) : cacheInv t := by
  intro e he
  rw [hc] at he
  rw [publicRefs_eq_of s t hi hh]
  exact h e he

theorem cacheInv_updateGallery (s : Store) (now : Nat) :
    cacheInv (updateSessionCache s "gallery" (publicRefs s) now) := by
  intro e he
  simp only [updateSessionCache, if_pos rfl] at he
  have hd : e.data = publicRefs s := by
    cases he
    rfl
  rw [hd]
  exact (publicRefs_eq_of s _ rfl rfl).symm ▸ rfl

theorem trackEvent_analyticsEvents (s : Store) (ty : String) (d : EventData) (now : Nat) :
    ((trackEvent s ty d now).2).analyticsEvents
      = takeLast 10000 (s.analyticsEvents ++ [mkEvent ty d now]) := by
  unfold trackEvent saveGalleryData
  dsimp only
  split
  · rfl
  · next h2 => exact (takeLast_eq_self (Nat.le_of_not_lt h2)).symm

theorem trackEvent_len_le (s : Store) (ty : String) (d : EventData) (now : Nat) :
    ((trackEvent s ty d now).2).analyticsEvents.length ≤ 10000 := by
  unfold trackEvent saveGalleryData
  dsimp only
  split
  · rw [takeLast_length]
    exact Nat.min_le_left _ _
  · next h2 => exact Nat.le_of_not_lt h2

theorem publicRefs_incViews (s : Store) (fn : String) (now : Nat) :
    publicRefs ((incrementImageViews s fn now).2) = publicRefs s := by
  unfold incrementImageViews
  cases hf : s.images.find? (fun r => (s.heap r).filename == fn) with
  | none => simp [hf]
  | some r =>
      simp only [hf]
      show publicRefs (saveGalleryData
        { s with heap := fun x => if x = r then { s.heap r with views := (s.heap r).views + 1 }
                                  else s.heap x } now) = publicRefs s
      unfold publicRefs saveGalleryData
      have hpub : ∀ x ∈ s.images,
          ((fun x => if x = r then { s.heap r with views := (s.heap r).views + 1 }
                     else s.heap x) x).isPublic = (s.heap x).isPublic := by
        intro x _
        by_cases hx : x = r <;> simp [hx]
      have hup : ∀ x,
          ((fun x => if x = r then { s.heap r with views := (s.heap r).views + 1 }
                     else s.heap x) x).uploadedAt = (s.heap x).uploadedAt := by
        intro x
        by_cases hx : x = r <;> simp [hx]
      simp only []
      rw [List.filter_congr (fun x hx => by rw [hpub x hx])]
      exact sortDesc_congr (fun a _ => hup a)

theorem trackEvent_cache (s : Store) (ty : String) (d : EventData) (now : Nat) :
    ((trackEvent s ty d now).2).sessionCache = s.sessionCache := rfl

theorem trackEvent_images (s : Store) (ty : String) (d : EventData) (now : Nat) :
    ((trackEvent s ty d now).2).images = s.images := rfl

theorem trackEvent_heap (s : Store) (ty : String) (d : EventData) (now : Nat) :
    ((trackEvent s ty d now).2).heap = s.heap := rfl

theorem postOrder_fields (s : Store) (req : OrderReq) (now : Nat) :
    ((postOrder s req now).2).sessionCache = s.sessionCache ∧
    ((postOrder s req now).2).images = s.images ∧
    ((postOrder s req now).2).heap = s.heap := by
  unfold postOrder
  dsimp only
  split
  · exact ⟨rfl, rfl, rfl⟩
  · split
    · exact ⟨rfl, rfl, rfl⟩
    · exact ⟨rfl, rfl, rfl⟩

theorem postOrder_analytics_le (s : Store) (req : OrderReq) (now : Nat)
    (h : s.analyticsEvents.length ≤ 10000) :
    ((postOrder s req now).2).analyticsEvents.length ≤ 10000 := by
  unfold postOrder
  dsimp only
  split
  · exact h
  · split
    · exact h
    · exact trackEvent_len_le _ _ _ _

theorem addImage_analytics (s : Store) (meta : ImageMeta) (now : Nat) :
    ((addImage s meta now).2).analyticsEvents = s.analyticsEvents := rfl

theorem removeImage_analytics (s : Store) (id now : Nat) :
    ((removeImage s id now).2).analyticsEvents = s.analyticsEvents := by
  unfold removeImage
  split
  · rfl
  · rfl

theorem incViews_analytics (s : Store) (fn : String) (now : Nat) :
    ((incrementImageViews s fn now).2).analyticsEvents = s.analyticsEvents := by
  unfold incrementImageViews
  split
  · rfl
  · rfl

theorem incViews_cache (s : Store) (fn : String) (now : Nat) :
    ((incrementImageViews s fn now).2).sessionCache = s.sessionCache := by
  unfold incrementImageViews
  split
  · rfl
  · rfl

theorem cacheGet_analytics (s : Store) (k : String) (now : Nat) :
    ((getFromSessionCache s k now).2).analyticsEvents = s.analyticsEvents := by
  unfold getFromSessionCache
  split
  · split
    · rfl
    · rfl
  · rfl

theorem cacheInv_stepOp (s : Store) (op : Op) (h : cacheInv s) : cacheInv (stepOp s op) := by
  cases op with
  | addImg meta now =>
      simp only [stepOp]
      unfold addImage
      dsimp only
      exact cacheInv_updateGallery _ _
  | rmImg id now =>
      simp only [stepOp]
      unfold removeImage
      cases hf : s.images.findIdx? (fun r => (s.heap r).id == id) with
      | none => simp only [hf]; exact h
      | some i =>
          simp only [hf]
          exact cacheInv_updateGallery _ _
  | incViews fn now =>
      simp only [stepOp]
      intro e he
      rw [incViews_cache] at he
      rw [publicRefs_incViews]
      exact h e he
  | track ty d now =>
      exact cacheInv_of_untouched s _ (trackEvent_cache s ty d now)
        (trackEvent_images s ty d now) (trackEvent_heap s ty d now) h
  | order req now =>
      exact cacheInv_of_untouched s _ (postOrder_fields s req now).1
        (postOrder_fields s req now).2.1 (postOrder_fields s req now).2.2 h
  | save now => exact cacheInv_of_untouched s _ rfl rfl rfl h
  | cacheGet k now =>
      simp only [stepOp]
      unfold getFromSessionCache
      cases hk : s.sessionCache k with
      | some e1 =>
          simp only [hk]
          split
          · exact h
          · intro e he
            dsimp at he
            by_cases hg : ("gallery" : String) = k
            · rw [if_pos hg] at he
              exact absurd he (by simp)
            · rw [if_neg hg] at he
              exact h e he
      | none =>
          simp only [hk]
          intro e he
          dsimp at he
          by_cases hg : ("gallery" : String) = k
          · rw [if_pos hg] at he
            exact absurd he (by simp)
          · rw [if_neg hg] at he
            exact h e he
  | cacheWriteGallery now =>
      simp only [stepOp]
      exact cacheInv_updateGallery _ _
  | clearCache now =>
      simp only [stepOp]
      unfold clearExpiredSessions
      intro e he
      dsimp at he
      cases hg : s.sessionCache "gallery" with
      | some e1 =>
          simp only [hg] at he
          split at he
          · exact absurd he (by simp)
          · have he1 : e1 = e := by injection he
            exact he1 ▸ h e1 hg
      | none => simp [hg] at he
  | adminLogin sid u ip ua now => exact cacheInv_of_untouched s _ rfl rfl rfl h
  | adminLogout sid => exact cacheInv_of_untouched s _ rfl rfl rfl h
  | adminSweepOp now => exact cacheInv_of_untouched s _ rfl rfl rfl h

theorem stepOp_analytics_le (s : Store) (op : Op) (h : s.analyticsEvents.length ≤ 10000) :
    (stepOp s op).analyticsEvents.length ≤ 10000 := by
  cases op with
  | addImg meta now => simp only [stepOp]; rw [addImage_analytics]; exact h
  | rmImg id now => simp only [stepOp]; rw [removeImage_analytics]; exact h
  | incViews fn now => simp only [stepOp]; rw [incViews_analytics]; exact h
  | track ty d now => simp only [stepOp]; exact trackEvent_len_le _ _ _ _
  | order req now => simp only [stepOp]; exact postOrder_analytics_le _ _ _ h
  | save now => simp only [stepOp]; exact h
  | cacheGet k now => simp only [stepOp]; rw [cacheGet_analytics]; exact h
  | cacheWriteGallery now => simp only [stepOp]; exact h
  | clearCache now => simp only [stepOp]; exact h
  | adminLogin sid u ip ua now => simp only [stepOp]; exact h
  | adminLogout sid => simp only [stepOp]; exact h
  | adminSweepOp now => simp only [stepOp]; exact h

theorem cacheInv_applyOps (s : Store) (ops : List Op) (h : cacheInv s) :
    cacheInv (applyOps s ops) := by
  induction ops generalizing s with
  | nil => exact h
  | cons op t ih => exact ih _ (cacheInv_stepOp s op h)

theorem servedFromCache_eq (s : Store) (now : Nat) (refs : List Nat) (s₂ : Store)
    (h : cacheInv s) (hhit : getFromSessionCache s "gallery" now = (some refs, s₂)) :
    refs.map s.heap = getPublicImages s := by
  unfold getFromSessionCache at hhit
  cases hg : s.sessionCache "gallery" with
  | none => rw [hg] at hhit; simp at hhit
  | some e =>
      rw [hg] at hhit
      dsimp only at hhit
      by_cases hexp : now < e.expires
      · rw [if_pos hexp] at hhit
        have hd : e.data = refs := by
          have := congrArg Prod.fst hhit
          simpa using this
        rw [← hd, h e hg]
        rfl
      · rw [if_neg hexp] at hhit
        simp at hhit


theorem runTrack_analytics (ts : List TrackIn) (s : Store)
    (h : s.analyticsEvents.length ≤ 10000) :
    (runTrack s ts).analyticsEvents
      = takeLast 10000 (s.analyticsEvents ++ mkEvents ts) := by
  induction ts generalizing s with
  | nil =>
      simp only [runTrack, mkEvents, List.map_nil, List.append_nil]
      exact (takeLast_eq_self h).symm
  | cons i t ih =>
      rw [runTrack, ih _ (trackEvent_len_le _ _ _ _), trackEvent_analyticsEvents,
        takeLast_append]
      simp [mkEvents]

theorem findIdx?_append_cons {p : α → Bool} (l1 : List α) (x : α) (l2 : List α)
    (h1 : ∀ a ∈ l1, p a = false) (hx : p x = true) :
    (l1 ++ x :: l2).findIdx? p = some l1.length := by
  induction l1 with
  | nil => simp [hx]
  | cons a t ih =>
      have ha : p a = false := h1 a (List.mem_cons_self a t)
      have ht := ih (fun b hb => h1 b (List.mem_cons_of_mem a hb))
      rw [List.cons_append, List.findIdx?_cons, ha]
      simp [List.findIdx?_succ, ht]

theorem eraseIdx_append_length (l1 : List α) (x : α) (l2 : List α) :
    (l1 ++ x :: l2).eraseIdx l1.length = l1 ++ l2 := by
  induction l1 with
  | nil => simp
  | cons a t ih => simp [ih]

theorem getD_append_length (l1 : List α) (x : α) (l2 : List α) (d : α) :
    (l1 ++ x :: l2).getD l1.length d = x := by
  induction l1 with
  | nil => rfl
  | cons a t ih => simpa using ih

theorem getPublicImages_eq_sort_values (s : Store) :
    getPublicImages s
      = sortDesc (fun i => i.uploadedAt)
          ((s.images.map s.heap).filter (fun i => i.isPublic)) := by
  unfold getPublicImages publicRefs
  rw [List.filter_map, sortDesc_map]
  rfl

/-! ### Claims -/

/-- C1: cache/no-cache equivalence of the public gallery.  A cache entry
freshly populated by `updateSessionCache('gallery', getPublicImages())`
satisfies the coherence invariant; the invariant is preserved by any
interleaving of the store's operations (in particular `addImage`,
`removeImage` and `incrementImageViews`); and under it, any
`getFromSessionCache('gallery')` hit serves exactly the list
`getPublicImages()` computes fresh on the current registry state. -/
theorem c1_cache_equivalence (s : Store) (ops : List Op) (now now₀ : Nat) :
    cacheInv (updateSessionCache s "gallery" (publicRefs s) now₀) ∧
    (cacheInv s → cacheInv (applyOps s ops)) ∧
    (∀ refs s₂, cacheInv s →
      getFromSessionCache (applyOps s ops) "gallery" now = (some refs, s₂) →
      refs.map (applyOps s ops).heap = getPublicImages (applyOps s ops)) := by
  refine ⟨cacheInv_updateGallery s now₀, fun h => cacheInv_applyOps s ops h, ?_⟩
  intro refs s₂ h hhit
  exact servedFromCache_eq _ now refs s₂ (cacheInv_applyOps s ops h) hhit

/-- Witness for C1: populate the cache, upload an image, and read the cache
at a later instant — the cache hit serves the fresh public list. -/
theorem c1_cache_equivalence_witness :
    List.map (applyOps freshStore [Op.cacheWriteGallery 0, Op.addImg meta0 1]).heap [0]
      = getPublicImages (applyOps freshStore [Op.cacheWriteGallery 0, Op.addImg meta0 1]) :=
  (c1_cache_equivalence freshStore [Op.cacheWriteGallery 0, Op.addImg meta0 1] 5 0).2.2
    [0] (applyOps freshStore [Op.cacheWriteGallery 0, Op.addImg meta0 1])
    (fun _ he => nomatch he) rfl

/-- C2 counterexample: a session created at `T = 0` is still accepted by the
direct validity check `validateAdminSession` even though, at the claimed
check time `T + 2h01m = 7,260,000 ms`, it is older than the 2-hour limit
(second conjunct); no operation between login and check reads the clock, so
this is exactly the state the direct check sees at `T + 2h01m`.  This
refutes "invalid at T + 2h01m … when checked directly by the validity check
(validateAdminSession)": the check is presence-only. -/
theorem c2_counterexample :
    validateAdminSession
        (createAdminSession freshStore "session_0_x" "warmdelights_admin" "ip" "ua" 0).2
        "session_0_x" = true
      ∧ 2 * 3600000 < 7260000 - 0 := by
  constructor
  · rfl
  · decide

/-- C2 (amended): `validateAdminSession` is a presence-only check, so a
session is directly valid at any age until removed; the periodic sweep is
what enforces the 2-hour limit: a sweep run at `T + 1h59m` keeps the session
(still directly valid afterwards), a sweep run at `T + 2h01m` deletes it
(directly invalid afterwards), and in general a sweep keeps the session
exactly while `now - T ≤ 2h`.  (At request time, ages beyond 2 hours are
instead rejected by the JWT credential's own 2-hour expiry, which is
external library code.) -/
theorem c2_session_expiry (s : Store) (sid username ip ua : String) (T : Nat) :
    validateAdminSession (createAdminSession s sid username ip ua T).2 sid = true ∧
    validateAdminSession
      (adminSweep (createAdminSession s sid username ip ua T).2 (T + 7140000)) sid = true ∧
    validateAdminSession
      (adminSweep (createAdminSession s sid username ip ua T).2 (T + 7260000)) sid = false ∧
    (∀ now, now - T ≤ 7200000 →
      validateAdminSession
        (adminSweep (createAdminSession s sid username ip ua T).2 now) sid = true) ∧
    (∀ now, 7200000 < now - T →
      validateAdminSession
        (adminSweep (createAdminSession s sid username ip ua T).2 now) sid = false) := by
  have hmap : (createAdminSession s sid username ip ua T).2.adminSessions sid
      = some { username := username, loginTime := T, ip := ip, userAgent := ua } := by
    simp [createAdminSession]
  have hkeep : ∀ now, now - T ≤ 7200000 →
      validateAdminSession
        (adminSweep (createAdminSession s sid username ip ua T).2 now) sid = true := by
    intro now hn
    unfold validateAdminSession adminSweep
    dsimp only
    rw [hmap]
    dsimp only
    rw [if_neg (by omega)]
    rfl
  have hdrop : ∀ now, 7200000 < now - T →
      validateAdminSession
        (adminSweep (createAdminSession s sid username ip ua T).2 now) sid = false := by
    intro now hn
    unfold validateAdminSession adminSweep
    dsimp only
    rw [hmap]
    dsimp only
    rw [if_pos (by omega)]
    rfl
  have hval : validateAdminSession (createAdminSession s sid username ip ua T).2 sid = true := by
    unfold validateAdminSession
    rw [hmap]
    rfl
  refine ⟨hval, hkeep _ (by omega), hdrop _ (by omega), hkeep, hdrop⟩

/-- Witness for C2 (amended): concrete login at `T = 0`; a sweep at 1h59m
keeps the session, a sweep at 2h01m removes it. -/
theorem c2_session_expiry_witness :
    validateAdminSession
      (adminSweep (createAdminSession freshStore "session_0_y" "admin" "ip" "ua" 0).2 7140000)
      "session_0_y" = true ∧
    validateAdminSession
      (adminSweep (createAdminSession freshStore "session_0_y" "admin" "ip" "ua" 0).2 7260000)
      "session_0_y" = false :=
  ⟨(c2_session_expiry freshStore "session_0_y" "admin" "ip" "ua" 0).2.2.2.1 7140000 (by decide),
   (c2_session_expiry freshStore "session_0_y" "admin" "ip" "ua" 0).2.2.2.2 7260000 (by decide)⟩

/-- C3 counterexample: a store with 5001 analytics events does not round-trip
through save/load — `saveGalleryData` persists only `slice(-5000)`, so the
reloaded collection has 5000 events, not 5001. -/
theorem load_save_analytics (s : Store) (now : Nat) :
    (loadGalleryData (saveGalleryData s now).dataFile).analyticsEvents
      = takeLast 5000 s.analyticsEvents := by
  simp [loadGalleryData, saveGalleryData, mkSnapshot]

theorem load_save_orders (s : Store) (now : Nat) :
    (loadGalleryData (saveGalleryData s now).dataFile).orders = s.orders := by
  simp [loadGalleryData, saveGalleryData, mkSnapshot]

theorem load_save_counter (s : Store) (now : Nat) :
    (loadGalleryData (saveGalleryData s now).dataFile).orderIdCounter
      = (if s.orderIdCounter = 0 then 1 else s.orderIdCounter) := by
  simp [loadGalleryData, saveGalleryData, mkSnapshot]

theorem load_save_images (s : Store) (now : Nat) :
    (loadGalleryData (saveGalleryData s now).dataFile).images.map
      (loadGalleryData (saveGalleryData s now).dataFile).heap = s.images.map s.heap := by
  have h1 : (loadGalleryData (saveGalleryData s now).dataFile).images
      = List.range (s.images.map s.heap).length := by
    simp [loadGalleryData, saveGalleryData, mkSnapshot]
  have h2 : (loadGalleryData (saveGalleryData s now).dataFile).heap
      = fun r => (s.images.map s.heap).getD r defaultImage := by
    simp [loadGalleryData, saveGalleryData, mkSnapshot]
  rw [h1, h2]
  exact range_map_getD (s.images.map s.heap) defaultImage

/-- C3 counterexample: a store with 5001 analytics events does not round-trip
through save/load — `saveGalleryData` persists only `slice(-5000)`, so the
reloaded collection has 5000 events, not 5001. -/
theorem c3_counterexample :
    (loadGalleryData (saveGalleryData
        { freshStore with analyticsEvents := List.replicate 5001 (mkEvent "page_visit" [] 0) }
        0).dataFile).analyticsEvents
      ≠ List.replicate 5001 (mkEvent "page_visit" [] 0) := by
  intro h
  rw [load_save_analytics] at h
  dsimp only at h
  rw [takeLast_replicate] at h
  have hlen := congrArg List.length h
  rw [List.length_replicate, List.length_replicate] at hlen
  omega

/-- C3 (amended): saving the full store and loading into a fresh instance
reproduces the images (as record values) and the orders exactly, reproduces
the counter exactly whenever it is ≥ 1 (a counter of 0 would reload as 1 via
`|| 1`, but the counter starts at 1 and only increments), and reproduces the
analytics collection exactly if and only if at most 5000 events are in
memory: in general the reload yields the most recent `min(K, 5000)` events,
because `saveGalleryData` persists `analytics.slice(-5000)`. -/
theorem c3_roundtrip (s : Store) (now : Nat) :
    (loadGalleryData (saveGalleryData s now).dataFile).images.map
        (loadGalleryData (saveGalleryData s now).dataFile).heap = s.images.map s.heap ∧
    (loadGalleryData (saveGalleryData s now).dataFile).orders = s.orders ∧
    (loadGalleryData (saveGalleryData s now).dataFile).analyticsEvents
        = takeLast 5000 s.analyticsEvents ∧
    (loadGalleryData (saveGalleryData s now).dataFile).orderIdCounter
        = (if s.orderIdCounter = 0 then 1 else s.orderIdCounter) ∧
    (s.analyticsEvents.length ≤ 5000 →
      (loadGalleryData (saveGalleryData s now).dataFile).analyticsEvents
        = s.analyticsEvents) ∧
    (1 ≤ s.orderIdCounter →
      (loadGalleryData (saveGalleryData s now).dataFile).orderIdCounter
        = s.orderIdCounter) := by
  refine ⟨load_save_images s now, load_save_orders s now, load_save_analytics s now,
    load_save_counter s now, ?_, ?_⟩
  · intro h
    rw [load_save_analytics]
    exact takeLast_eq_self h
  · intro h
    rw [load_save_counter, if_neg (by omega)]

/-- Witness for C3 (amended): a store with one analytics event and counter 3
round-trips exactly. -/
theorem c3_roundtrip_witness :
    (loadGalleryData (saveGalleryData
        { freshStore with analyticsEvents := [mkEvent "page_visit" [] 1], orderIdCounter := 3 }
        0).dataFile).analyticsEvents = [mkEvent "page_visit" [] 1] ∧
    (loadGalleryData (saveGalleryData
        { freshStore with analyticsEvents := [mkEvent "page_visit" [] 1], orderIdCounter := 3 }
        0).dataFile).orderIdCounter = 3 :=
  ⟨(c3_roundtrip
      { freshStore with analyticsEvents := [mkEvent "page_visit" [] 1], orderIdCounter := 3 }
      0).2.2.2.2.1 (by simp),
   (c3_roundtrip
      { freshStore with analyticsEvents := [mkEvent "page_visit" [] 1], orderIdCounter := 3 }
      0).2.2.2.2.2 (by decide)⟩

theorem mkSnapshot_analytics (s : Store) (now : Nat) :
    (mkSnapshot s now).analytics = takeLast 5000 s.analyticsEvents := by
  simp [mkSnapshot]

theorem mkStore_values (l : List ImageRecord) :
    (mkStore l).images.map (mkStore l).heap = l := by
  have h1 : (mkStore l).images = List.range l.length := by simp [mkStore]
  have h2 : (mkStore l).heap = fun r => l.getD r defaultImage := by simp [mkStore]
  rw [h1, h2]
  exact range_map_getD l defaultImage

/-- C4: bounded analytics retention.  Starting from the empty log, 10050
`trackEvent` calls leave exactly the 10000 most recent events in memory
(the first 50 are dropped); the snapshot then written by `saveGalleryData`
holds at most 5000 events and is the most recent suffix of the in-memory
list; and the bound `length ≤ 10000` is preserved by every operation. -/
theorem c4_bounded_retention :
    (∀ ts : List TrackIn, ts.length = 10050 →
      (runTrack freshStore ts).analyticsEvents = (mkEvents ts).drop 50 ∧
      (runTrack freshStore ts).analyticsEvents.length = 10000 ∧
      (mkSnapshot (runTrack freshStore ts) 0).analytics = takeLast 5000 (mkEvents ts) ∧
      (mkSnapshot (runTrack freshStore ts) 0).analytics.length ≤ 5000 ∧
      (mkSnapshot (runTrack freshStore ts) 0).analytics
        <:+ (runTrack freshStore ts).analyticsEvents) ∧
    (∀ (s : Store) (op : Op), s.analyticsEvents.length ≤ 10000 →
      (stepOp s op).analyticsEvents.length ≤ 10000) := by
  constructor
  · intro ts hts
    have hE : (mkEvents ts).length = 10050 := by simp [mkEvents, hts]
    have hrun : (runTrack freshStore ts).analyticsEvents = takeLast 10000 (mkEvents ts) := by
      have h0 : (freshStore : Store).analyticsEvents.length ≤ 10000 := by simp [freshStore]
      have h := runTrack_analytics ts freshStore h0
      simpa [freshStore] using h
    have hdrop : takeLast 10000 (mkEvents ts) = (mkEvents ts).drop 50 := by
      unfold takeLast
      rw [hE]
    have hsnap : (mkSnapshot (runTrack freshStore ts) 0).analytics
        = takeLast 5000 (mkEvents ts) := by
      rw [mkSnapshot_analytics, hrun, takeLast_takeLast 5000 10000 _ (by omega)]
    refine ⟨hrun.trans hdrop, ?_, hsnap, ?_, ?_⟩
    · rw [hrun, takeLast_length, hE]
      omega
    · rw [hsnap, takeLast_length, hE]
      exact Nat.min_le_left _ _
    · rw [mkSnapshot_analytics]
      unfold takeLast
      exact List.drop_suffix _ _
  · exact stepOp_analytics_le

/-- Witness for C4: 10050 identical `trackEvent` inputs leave the last 10000
events, and one `track` operation preserves the in-memory bound. -/
theorem c4_bounded_retention_witness :
    (runTrack freshStore (List.replicate 10050 trackIn0)).analyticsEvents
      = (mkEvents (List.replicate 10050 trackIn0)).drop 50 ∧
    (stepOp freshStore (Op.track "page_visit" [] 3)).analyticsEvents.length ≤ 10000 :=
  ⟨(c4_bounded_retention.1 (List.replicate 10050 trackIn0) (by rw [List.length_replicate])).1,
   c4_bounded_retention.2 freshStore (Op.track "page_visit" [] 3) (by simp [freshStore])⟩

/-- C5: `getPublicImages` returns exactly the records with `isPublic = true`
(a permutation of the filtered registry values), sorted by `uploadedAt`
descending, and the sort is stable: records with any fixed `uploadedAt`
appear in their insertion order; for three public images with upload times
`t1 < t2 < t3`, the result is `[t3, t2, t1]`. -/
theorem c5_public_ordering :
    (∀ s : Store,
      (getPublicImages s).Perm ((s.images.map s.heap).filter (fun i => i.isPublic)) ∧
      (getPublicImages s).Pairwise (fun a b => b.uploadedAt ≤ a.uploadedAt) ∧
      (∀ m : Nat,
        (getPublicImages s).filter (fun i => decide (i.uploadedAt = m))
          = ((s.images.map s.heap).filter (fun i => i.isPublic)).filter
              (fun i => decide (i.uploadedAt = m)))) ∧
    (∀ i1 i2 i3 : ImageRecord,
      i1.isPublic = true → i2.isPublic = true → i3.isPublic = true →
      i1.uploadedAt < i2.uploadedAt → i2.uploadedAt < i3.uploadedAt →
      getPublicImages (mkStore [i1, i2, i3]) = [i3, i2, i1]) := by
  constructor
  · intro s
    refine ⟨?_, ?_, ?_⟩
    · rw [getPublicImages_eq_sort_values]
      exact sortDesc_perm _ _
    · rw [getPublicImages_eq_sort_values]
      exact sortDesc_sorted _ _
    · intro m
      rw [getPublicImages_eq_sort_values]
      exact sortDesc_stable _ m _
  · intro i1 i2 i3 h1 h2 h3 h12 h23
    have h13 : i1.uploadedAt < i3.uploadedAt := Nat.lt_trans h12 h23
    rw [getPublicImages_eq_sort_values, mkStore_values]
    simp [List.filter, h1, h2, h3, sortDesc, insertDesc, h12, h23, h13]

/-- Witness for C5: three concrete public records uploaded at 100 < 200 < 300
come back newest first. -/
theorem c5_public_ordering_witness :
    getPublicImages (mkStore [img1, img2, img3]) = [img3, img2, img1] :=
  c5_public_ordering.2 img1 img2 img3 (by decide) (by decide) (by decide)
    (by decide) (by decide)

/-- C6: delete semantics.  `removeImage(id)` with no matching record returns
`null` and leaves the whole store untouched; with a matching record it
removes exactly the first record whose `id` matches (the registry becomes
the same list with that one element gone, one shorter), returns the removed
record, and leaves every other record's contents (the heap) unchanged. -/
theorem c6_delete_semantics (s : Store) (imageId : Nat) (now : Nat) :
    ((∀ r ∈ s.images, (s.heap r).id ≠ imageId) →
      removeImage s imageId now = (none, s)) ∧
    (∀ l1 r l2, s.images = l1 ++ r :: l2 →
      (∀ a ∈ l1, (s.heap a).id ≠ imageId) →
      (s.heap r).id = imageId →
      (removeImage s imageId now).1 = some (s.heap r) ∧
      ((removeImage s imageId now).2).images = l1 ++ l2 ∧
      ((removeImage s imageId now).2).images.length = s.images.length - 1 ∧
      ((removeImage s imageId now).2).heap = s.heap) := by
  constructor
  · intro h
    have hf : s.images.findIdx? (fun r => (s.heap r).id == imageId) = none := by
      rw [List.findIdx?_eq_none_iff]
      intro x hx
      simp [h x hx]
    unfold removeImage
    rw [hf]
  · intro l1 r l2 himg hpre hr
    have hf : s.images.findIdx? (fun x => (s.heap x).id == imageId) = some l1.length := by
      rw [himg]
      exact findIdx?_append_cons l1 r l2 (fun a ha => by simp [hpre a ha]) (by simp [hr])
    have hgetD : s.images.getD l1.length 0 = r := by
      rw [himg]
      exact getD_append_length l1 r l2 0
    have herase : s.images.eraseIdx l1.length = l1 ++ l2 := by
      rw [himg]
      exact eraseIdx_append_length l1 r l2
    have hlen : s.images.length = l1.length + 1 + l2.length := by
      rw [himg]
      simp
      omega
    unfold removeImage
    rw [hf]
    dsimp only
    rw [hgetD, herase]
    refine ⟨rfl, rfl, ?_, rfl⟩
    show (l1 ++ l2).length = s.images.length - 1
    rw [hlen, List.length_append]
    omega

/-- Witness for C6: in a registry holding records with ids 10 and 20,
deleting id 99 is a no-op returning `none`, and deleting id 20 returns that
record. -/
theorem c6_delete_semantics_witness :
    removeImage (mkStore [imgA, imgB]) 99 0 = (none, mkStore [imgA, imgB]) ∧
    (removeImage (mkStore [imgA, imgB]) 20 0).1 = some ((mkStore [imgA, imgB]).heap 1) :=
  ⟨(c6_delete_semantics (mkStore [imgA, imgB]) 99 0).1 (by decide),
   ((c6_delete_semantics (mkStore [imgA, imgB]) 20 0).2 [0] 1 [] (by decide)
     (by decide) (by decide)).1⟩

/-- C7 counterexample: a request with all required contact fields present but
an `items` string on which `JSON.parse` throws is answered with HTTP 500
("Failed to place order") by the catch handler, not with a 400 validation
error as claimed; the store is unchanged either way. -/
theorem c7_counterexample :
    (postOrder freshStore badReq 0).1.status = 500 ∧
    ¬ (postOrder freshStore badReq 0).1.status = 400 ∧
    (postOrder freshStore badReq 0).2 = freshStore := by
  refine ⟨rfl, ?_, rfl⟩
  intro h
  rw [show (postOrder freshStore badReq 0).1.status = 500 from rfl] at h
  omega

/-- C7 (amended): a missing or empty `customerName`, `email` or `phone`
yields HTTP 400 with the message naming the violated constraint and no state
mutated; an `items` string that is not valid JSON instead reaches the
catch-all and yields HTTP 500 (a server error, not a 400 validation error) —
also with no state mutated, since `JSON.parse` throws before the order is
stored and before the counter is incremented. -/
theorem c7_order_validation (s : Store) (req : OrderReq) (now : Nat) :
    ((jsFalsy req.customerName || jsFalsy req.email || jsFalsy req.phone) = true →
      (postOrder s req now).1.status = 400 ∧
      (postOrder s req now).1.message = "Name, email, and phone are required" ∧
      (postOrder s req now).2 = s) ∧
    ((jsFalsy req.customerName || jsFalsy req.email || jsFalsy req.phone) = false →
      req.items = ItemsField.str none →
      (postOrder s req now).1.status = 500 ∧
      (postOrder s req now).2 = s) := by
  constructor
  · intro h
    unfold postOrder
    rw [if_pos h]
    exact ⟨rfl, rfl, rfl⟩
  · intro h hitems
    unfold postOrder
    rw [if_neg (by simp [h]), hitems]
    dsimp only [parseItems]
    exact ⟨rfl, rfl⟩

/-- Witness for C7 (amended): a request with no `customerName` gets a 400 and
no mutation; `badReq` (bad JSON items) gets a 500 and no mutation. -/
theorem c7_order_validation_witness :
    ((postOrder freshStore missingReq 0).1.status = 400 ∧
      (postOrder freshStore missingReq 0).1.message = "Name, email, and phone are required" ∧
      (postOrder freshStore missingReq 0).2 = freshStore) ∧
    ((postOrder freshStore badReq 0).1.status = 500 ∧
      (postOrder freshStore badReq 0).2 = freshStore) :=
  ⟨(c7_order_validation freshStore missingReq 0).1 (by decide),
   (c7_order_validation freshStore badReq 0).2 (by decide) rfl⟩

/-- C8: incrementing views for a filename with no matching record returns `0`
and leaves the store — the registry, the heap (hence every record's `views`
counter), and everything else — exactly unchanged; in particular it creates
no record and does not save. -/
theorem c8_view_increment_missing (s : Store) (fn : String) (now : Nat)
    (h : ∀ r ∈ s.images, (s.heap r).filename ≠ fn) :
    incrementImageViews s fn now = (0, s) := by
  have hf : s.images.find? (fun r => (s.heap r).filename == fn) = none := by
    rw [List.find?_eq_none]
    intro x hx
    simp [h x hx]
  unfold incrementImageViews
  rw [hf]

/-- Witness for C8: a registry holding one record named `x.jpg` is untouched
by a view-tick for `nope.jpg`, which returns 0. -/
theorem c8_view_increment_missing_witness :
    incrementImageViews (mkStore [imgA]) "nope.jpg" 0 = (0, mkStore [imgA]) :=
  c8_view_increment_missing (mkStore [imgA]) "nope.jpg" 0 (by decide)

/-- C9: `getPublicImages` is read-only on the registry — the call leaves the
store (in particular the in-memory images list, membership and insertion
order alike) identical, because `filter` allocates a fresh array and the
descending sort reorders only that copy; repeated calls therefore return the
same list. -/
theorem c9_get_public_images_read_only (s : Store) :
    (getPublicImagesCall s).2 = s ∧
    ((getPublicImagesCall s).2).images = s.images ∧
    (getPublicImagesCall s).1 = getPublicImages s ∧
    (getPublicImagesCall ((getPublicImagesCall s).2)).1 = (getPublicImagesCall s).1 :=
  ⟨rfl, rfl, rfl, rfl⟩

/-- C10: `getOrders(limit)` returns the last `min(limit, orders.length)`
orders in reverse insertion order for `limit ≥ 1`; at the boundary
`limit = 0`, `slice(-0)` is `slice(0)` — the whole list — so getOrders
returns ALL stored orders in reverse insertion order, not the empty list. -/
theorem c10_get_orders_boundary (s : Store) (limit : Nat) :
    (limit = 0 → getOrders s limit = s.orders.reverse) ∧
    (1 ≤ limit →
      getOrders s limit = (takeLast limit s.orders).reverse ∧
      (getOrders s limit).length = min limit s.orders.length) := by
  constructor
  · intro h
    subst h
    unfold getOrders jsSliceFrom
    norm_num
  · intro h
    unfold getOrders jsSliceFrom takeLast
    have hc : (-(limit : Int)) < 0 := by
      have h0 : (0 : Int) < (limit : Int) := by exact_mod_cast h
      omega
    rw [if_pos hc]
    have harg : (-(-(limit : Int))).toNat = limit := by simp
    rw [harg]
    exact ⟨rfl, by simp only [List.length_reverse, List.length_drop]; omega⟩

/-- Witness for C10: with three stored orders, `getOrders 0` returns all
three reversed and `getOrders 2` the last two reversed. -/
theorem c10_get_orders_boundary_witness :
    getOrders sOrders 0 = sOrders.orders.reverse ∧
    getOrders sOrders 2 = (takeLast 2 sOrders.orders).reverse :=
  ⟨(c10_get_orders_boundary sOrders 0).1 rfl,
   ((c10_get_orders_boundary sOrders 2).2 (by decide)).1⟩
